import Mathlib

/-!
Shallow embedding of `spatial-track` (src/src/main.rs), a head-tracking
audio panner: UDP telemetry frames are decoded, exponentially smoothed,
mapped to stereo gains plus a volume, and pushed to PipeWire playback
streams via `pw-cli`.

Floating-point (`f64`) quantities are modelled as rationals `ℚ`: every
arithmetic operation the mapped code performs (+, -, *, /, abs, signum,
clamp, max) is exact on the values the claims quantify over, and `ℚ`
keeps every definition executable.  Machine counters (`u64`, `u32`,
`usize`) are modelled as `ℕ` (no claim approaches an overflow boundary).
`Instant` time points are modelled as rational millisecond timestamps
supplied by an environment record, and the results of external
`pw-cli` subprocess invocations are likewise environment inputs.
-/

namespace SpatialTrack

/-! ### Tunable constants (main.rs lines 5-28) -/

/-- Source constant `SMOOTHING_FACTOR: f64 = 0.75`. -/
def SMOOTHING_FACTOR : ℚ := 3/4

/-- Source constant `YAW_SENSITIVITY: f64 = 30.0`. -/
def YAW_SENSITIVITY : ℚ := 30

/-- Source constant `PITCH_SENSITIVITY: f64 = 20.0`. -/
def PITCH_SENSITIVITY : ℚ := 20

/-- Source constant `DEAD_ZONE: f64 = 5.0`. -/
def DEAD_ZONE : ℚ := 5

/-- Source constant `UPDATE_RATE_MS: u64 = 40`, kept in milliseconds. -/
def UPDATE_RATE_MS : ℚ := 40

/-- Source constant `MIN_VOLUME: f64 = 0.3`. -/
def MIN_VOLUME : ℚ := 3/10

/-- Source constant `MAX_VOLUME: f64 = 1.0`. -/
def MAX_VOLUME : ℚ := 1

/-- Source constant `MIN_CHANNEL: f64 = 0.05`. -/
def MIN_CHANNEL : ℚ := 1/20

/-! ### Rust primitive operations on `f64`, restricted to finite values -/

/-- Rust `f64::signum`: `1.0` for positive (and `+0.0`), `-1.0` for
negative.  On `ℚ` the zero case is mapped to `1`, matching `+0.0`;
the source only applies `signum` to values of magnitude ≥ `DEAD_ZONE`,
where the choice is irrelevant. -/
def rustSignum (x : ℚ) : ℚ := if x < 0 then -1 else 1

/-- Rust `f64::clamp(lo, hi)`: `lo` if `x < lo`, `hi` if `x > hi`,
otherwise `x` (the source always calls it with `lo ≤ hi`). -/
def rustClamp (x lo hi : ℚ) : ℚ := if x < lo then lo else if x > hi then hi else x

/-! ### SmoothingFilter (main.rs lines 30-51) -/

/-- The source struct `SmoothedState` with fields yaw, pitch, roll. -/
structure SmoothedState where
  yaw : ℚ
  pitch : ℚ
  roll : ℚ
deriving Repr, DecidableEq

/-- Constructor `SmoothedState::new`: all axes start at zero. -/
def SmoothedState.new : SmoothedState := ⟨0, 0, 0⟩

/-- Operation `SmoothedState::update`: per-axis exponential smoothing
`smoothed = α·previous + (1−α)·raw`. -/
def SmoothedState.update (s : SmoothedState) (raw_yaw raw_pitch raw_roll : ℚ) :
    SmoothedState where
  yaw := SMOOTHING_FACTOR * s.yaw + (1 - SMOOTHING_FACTOR) * raw_yaw
  pitch := SMOOTHING_FACTOR * s.pitch + (1 - SMOOTHING_FACTOR) * raw_pitch
  roll := SMOOTHING_FACTOR * s.roll + (1 - SMOOTHING_FACTOR) * raw_roll

/-! ### PanMapper (main.rs lines 53-92) -/

/-- The source struct `AudioState` with fields left, right, volume, effective_yaw. -/
structure AudioState where
  left : ℚ
  right : ℚ
  volume : ℚ
  effective_yaw : ℚ
deriving Repr, DecidableEq

/-- The dead-zone step of `AudioState::from_head_tracking`
(main.rs lines 64-70): yaw magnitudes below `DEAD_ZONE` collapse to `0`;
otherwise the dead zone is subtracted from the magnitude, keeping the sign. -/
def effectiveYawOf (yaw : ℚ) : ℚ :=
  if |yaw| < DEAD_ZONE then 0 else rustSignum yaw * (|yaw| - DEAD_ZONE)

/-- The mapper `AudioState::from_head_tracking(yaw, pitch)` (main.rs lines 62-91),
the pure orientation→audio mapping. -/
def AudioState.from_head_tracking (yaw pitch : ℚ) : AudioState :=
  let effective_yaw := effectiveYawOf yaw
  let max_yaw := YAW_SENSITIVITY - DEAD_ZONE
  let normalized := (rustClamp effective_yaw (-max_yaw) max_yaw / max_yaw + 1) / 2
  let left := max (1 - normalized) MIN_CHANNEL
  let right := max normalized MIN_CHANNEL
  let pitch_normalized :=
    (rustClamp pitch (-PITCH_SENSITIVITY) PITCH_SENSITIVITY / PITCH_SENSITIVITY + 1) / 2
  let volume := MIN_VOLUME + pitch_normalized * (MAX_VOLUME - MIN_VOLUME)
  { left := left * volume
    right := right * volume
    volume := volume
    effective_yaw := effective_yaw }

/-! ### Rust string primitives used by `set_all_streams_pan`

These are written as structural recursions on the character list of the
string, so that every use of the parser evaluates by kernel reduction
on concrete listings.  On the ASCII output of `pw-cli` they agree with
the Rust standard-library operations they model (Rust trims by the
Unicode White_Space property, of which `Char.isWhitespace`'s four
characters are the ASCII part). -/

/-- Rust `str::trim`: remove leading and trailing whitespace. -/
def rustTrim (s : String) : String :=
  String.mk (((s.data.dropWhile Char.isWhitespace).reverse.dropWhile
    Char.isWhitespace).reverse)

/-- Rust `str::starts_with(pat)` for a string pattern. -/
def rustStartsWith (s pat : String) : Bool :=
  pat.data.isPrefixOf s.data

/-- Accumulator pass of `splitWhitespaceR`: `acc` holds the current
token reversed. -/
def splitWsGo : List Char → List Char → List String
  | [], acc => if acc = [] then [] else [String.mk acc.reverse]
  | c :: cs, acc =>
    if c.isWhitespace then
      if acc = [] then splitWsGo cs []
      else String.mk acc.reverse :: splitWsGo cs []
    else splitWsGo cs (c :: acc)

/-- Rust `str::split_whitespace`: whitespace-separated tokens, empty
tokens skipped. -/
def splitWhitespaceR (s : String) : List String :=
  splitWsGo s.data []

/-- Rust `str::trim_end_matches(',')`: strip every trailing comma. -/
def trimEndMatchesComma (s : String) : String :=
  String.mk ((s.data.reverse.dropWhile (fun c => c = ',')).reverse)

/-- Rust `str::contains(pat)`: substring occurrence. -/
def strContains (s pat : String) : Bool :=
  s.data.tails.any (fun t => pat.data.isPrefixOf t)

/-- Split a character list at every occurrence of `c` (the separator
occurrences are dropped; `n` separators yield `n + 1` groups). -/
def splitOnCharAux (c : Char) : List Char → List (List Char)
  | [] => [[]]
  | a :: as =>
    match splitOnCharAux c as with
    | [] => [[]]
    | grp :: rest => if a = c then [] :: grp :: rest else (a :: grp) :: rest

/-- Strip one trailing carriage return (the `\r\n` case of Rust
`str::lines`). -/
def stripTrailingCR (l : List Char) : String :=
  if l.getLast? = some '\x0d' then String.mk l.dropLast else String.mk l

/-- Rust `str::lines`: split on `'\n'`, no trailing empty line for a
final newline, each line stripped of one trailing `'\r'`. -/
def rustLines (s : String) : List String :=
  let parts := splitOnCharAux '\x0a' s.data
  let parts := if parts.getLast? = some [] then parts.dropLast else parts
  parts.map stripTrailingCR

/-! ### AudioGraphSync (main.rs lines 431-495)

The two `pw-cli` subprocess invocations are external effects; their
results enter the embedding as inputs.  `Option CmdOutput` models
`io::Result<process::Output>`: `none` is a spawn error (`Err(_)`),
`some` carries the captured exit-status flag and stdout text.  The
per-node `set-param` invocation is modelled as a function of the node
id string (for fixed `left`/`right`, the id is the only argument of the
command that varies across the loop; the claims concern only which
invocations happen and how successes are counted). -/

/-- Result of a completed subprocess: `status.success()` and stdout
(after `String::from_utf8_lossy`). -/
structure CmdOutput where
  success : Bool
  stdout : String

/-- The inner lookahead loop of `set_all_streams_pan` (main.rs lines
453-470): scan lines `j, j+1, …` while the index is below both
`lines.len()` and `stop` (`= i + 20` at the call site); stop at the
first line whose trimmed form starts with `"id"`; report whether a
scanned line before that advertises
`media.class … Stream/Output/Audio`.  (The Rust flag `is_audio_output`
is monotone — once set it is never cleared — so returning `true` at the
first match is the same function.)  The `fuel` argument makes the
recursion structural; it is instantiated with the loop measure
`stop - j`, which reaches `0` only when the loop guard `j < stop` is
already false, so exhausting it coincides with normal loop exit. -/
def blockScanAux (lines : List String) (stop : ℕ) : ℕ → ℕ → Bool
  | _, 0 => false
  | j, fuel + 1 =>
    if j < lines.length ∧ j < stop then
      let check_line := lines.getD j ""
      if rustStartsWith (rustTrim check_line) "id" then false
      else if strContains check_line "media.class" &&
          strContains check_line "Stream/Output/Audio" then true
      else blockScanAux lines stop (j + 1) fuel
    else false

/-- The lookahead loop entered with its full measure as fuel. -/
def blockIsAudioOutput (lines : List String) (j stop : ℕ) : Bool :=
  blockScanAux lines stop j (stop - j)

/-- The outer `while i < lines.len()` loop of `set_all_streams_pan`
(main.rs lines 446-492), accumulating `updated_count`.  `set_param id`
is the outcome of `pw-cli set-param <id> Props <payload>`.  As in
`blockScanAux`, `fuel` is the loop measure `lines.length - i`: it runs
out only when the guard `i < lines.length` is already false, so
exhausting it coincides with normal loop exit. -/
def panLoopAux (set_param : String → Option CmdOutput) (lines : List String) :
    ℕ → ℕ → ℕ → ℕ
  | _, updated_count, 0 => updated_count
  | i, updated_count, fuel + 1 =>
    if i < lines.length then
      let line := lines.getD i ""
      let updated_count' :=
        if rustStartsWith (rustTrim line) "id" &&
            strContains line "PipeWire:Interface:Node" then
          match (splitWhitespaceR line).get? 1 with
          | some id_str =>
            let id := trimEndMatchesComma id_str
            if blockIsAudioOutput lines (i + 1) (i + 20) then
              match set_param id with
              | some out => if out.success then updated_count + 1 else updated_count
              | none => updated_count
            else updated_count
          | none => updated_count
        else updated_count
      panLoopAux set_param lines (i + 1) updated_count' fuel
    else updated_count

/-- The function `set_all_streams_pan` (main.rs lines 432-495): on a spawn error of
the introspection command return `0`; otherwise parse its stdout (the
exit status of the introspection command is never consulted) and count
successful per-node updates. -/
def set_all_streams_pan (list_objects : Option CmdOutput)
    (set_param : String → Option CmdOutput) : ℕ :=
  match list_objects with
  | none => 0
  | some output =>
    panLoopAux set_param (rustLines output.stdout) 0 0 (rustLines output.stdout).length

/-! Spec-side characterization of the parse: which line indices start a
node block that the scan classifies as an audio playback stream. -/

/-- Line `i` starts a node block (trimmed line starts with `"id"` and
mentions the Node interface marker) that has a second whitespace token
(the id) and whose lookahead window classifies it as an audio output
stream. -/
def isCountedAudioNode (lines : List String) (i : ℕ) : Bool :=
  (rustStartsWith (rustTrim (lines.getD i "")) "id" &&
    strContains (lines.getD i "") "PipeWire:Interface:Node") &&
  ((splitWhitespaceR (lines.getD i "")).get? 1).isSome &&
  blockIsAudioOutput lines (i + 1) (i + 20)

/-- Number of counted audio-playback node blocks in a listing. -/
def audioNodeCount (lines : List String) : ℕ :=
  (List.range lines.length).countP (isCountedAudioNode lines)

/-! ### UpdateScheduler: the receive loop of `main` (main.rs lines 338-428)

One iteration of the `loop` for a successful `recv_from` is a state
transition on the mutable loop variables.  `Instant` values are rational
millisecond timestamps; `Instant::now()` readings and the subprocess
results are environment inputs to a cycle. -/

/-- The mutable state of `main`'s loop (main.rs lines 338-353). -/
structure LoopState where
  smoothed : SmoothedState
  raw_yaw : ℚ
  raw_pitch : ℚ
  raw_roll : ℚ
  last_update : ℚ
  last_fps_calc : ℚ
  packet_count : ℕ
  frame_count : ℕ
  current_fps : ℚ
  stream_count : ℕ
  latency_samples : List ℚ
  avg_latency_ms : ℚ
  first_packet : Bool
deriving Repr, DecidableEq

/-- The loop state right after the initialisations of main.rs lines
338-353, with both `Instant::now()` clocks read at time `t0`. -/
def LoopState.init (t0 : ℚ) : LoopState where
  smoothed := SmoothedState.new
  raw_yaw := 0
  raw_pitch := 0
  raw_roll := 0
  last_update := t0
  last_fps_calc := t0
  packet_count := 0
  frame_count := 0
  current_fps := 0
  stream_count := 0
  latency_samples := []
  avg_latency_ms := 0
  first_packet := true

/-- A successfully received datagram: its byte count `amt` and the six
little-endian `f64` values its first 48 bytes decode to (consulted only
when `amt = 48`; indices 3,4,5 are yaw, pitch, roll). -/
structure Datagram where
  amt : ℕ
  data : Fin 6 → ℚ

/-- Environment inputs consumed by one receive cycle: the
`Instant::now()` reading used for both `elapsed()` checks, the results
of the two kinds of `pw-cli` invocations, the measured wall-clock
duration of the apply call in milliseconds, and the `Instant::now()`
reading stored into `last_update` at the end of an apply cycle. -/
structure CycleEnv where
  now : ℚ
  list_objects : Option CmdOutput
  set_param : String → Option CmdOutput
  apply_latency_ms : ℚ
  end_time : ℚ

/-- What one receive cycle did: the resulting state, whether the
smoothing filter was updated, and — when the rate gate passed — the
`AudioState` that was applied and rendered (`none` when the cycle ended
without the mapping+apply+render step). -/
structure CycleResult where
  state : LoopState
  smoothing_ran : Bool
  applied : Option AudioState
deriving Repr, DecidableEq

/-- The latency-window insertion of main.rs lines 400-403: push the new
sample, then evict the oldest (`Vec::remove(0)`, i.e. the list tail
keeps the rest) once the window holds more than 30 samples. -/
def pushLatency (samples : List ℚ) (x : ℚ) : List ℚ :=
  let samples' := samples ++ [x]
  if samples'.length > 30 then samples'.tail else samples'

/-- One iteration of the receive loop for `Ok((amt, _addr))`
(main.rs lines 357-420): count the packet; drop non-48-byte datagrams;
decode and smooth; stop if less than `UPDATE_RATE_MS` elapsed since the
last update; otherwise recompute FPS, map the smoothed orientation to an
`AudioState`, push it to the streams, record the apply latency into the
bounded window, and reset `last_update`. -/
def recvStep (s0 : LoopState) (d : Datagram) (e : CycleEnv) : CycleResult :=
  let s := { s0 with packet_count := s0.packet_count + 1 }
  if d.amt ≠ 48 then
    { state := s, smoothing_ran := false, applied := none }
  else
    let raw_yaw := d.data 3
    let raw_pitch := d.data 4
    let raw_roll := d.data 5
    let s := { s with
      raw_yaw := raw_yaw
      raw_pitch := raw_pitch
      raw_roll := raw_roll
      smoothed := s.smoothed.update raw_yaw raw_pitch raw_roll }
    if e.now - s.last_update < UPDATE_RATE_MS then
      { state := s, smoothing_ran := true, applied := none }
    else
      let s := { s with first_packet := false }
      let frame_count : ℕ := s.frame_count + 1
      let s :=
        if e.now - s.last_fps_calc ≥ 1000 then
          { s with
            current_fps := (frame_count : ℚ) / ((e.now - s.last_fps_calc) / 1000)
            frame_count := 0
            last_fps_calc := e.now }
        else { s with frame_count := frame_count }
      let audio := AudioState.from_head_tracking s.smoothed.yaw s.smoothed.pitch
      let stream_count := set_all_streams_pan e.list_objects e.set_param
      let samples := pushLatency s.latency_samples e.apply_latency_ms
      let s := { s with
        stream_count := stream_count
        latency_samples := samples
        avg_latency_ms := samples.sum / (samples.length : ℚ)
        last_update := e.end_time }
      { state := s, smoothing_ran := true, applied := some audio }

/-! ### Helper lemmas about the Rust primitives -/

theorem rustClamp_mem (x lo hi : ℚ) (h : lo ≤ hi) :
    lo ≤ rustClamp x lo hi ∧ rustClamp x lo hi ≤ hi := by
  unfold rustClamp
  split_ifs <;> constructor <;> linarith

theorem rustClamp_mono (x y lo hi : ℚ) (hlohi : lo ≤ hi) (hxy : x ≤ y) :
    rustClamp x lo hi ≤ rustClamp y lo hi := by
  unfold rustClamp
  split_ifs <;> linarith

theorem rustClamp_neg (x m : ℚ) (hm : 0 ≤ m) :
    rustClamp (-x) (-m) m = -rustClamp x (-m) m := by
  unfold rustClamp
  split_ifs <;> linarith

theorem abs_rustSignum (x : ℚ) : |rustSignum x| = 1 := by
  unfold rustSignum
  split_ifs <;> norm_num

/-- The dead-zone step is odd: negating the yaw negates the effective yaw. -/
theorem effectiveYawOf_neg (yaw : ℚ) : effectiveYawOf (-yaw) = -effectiveYawOf yaw := by
  unfold effectiveYawOf rustSignum
  rw [abs_neg]
  split_ifs with h h1 h2 h3
  · ring
  · linarith
  · ring
  · ring
  · have hy : yaw = 0 := le_antisymm (by linarith) (by linarith)
    rw [hy] at h
    simp [DEAD_ZONE] at h

/-- A clamped-to-`[-m, m]` value divided by `m` and affinely rescaled
lands in `[0, 1]` — the shape of both normalisation steps of
`AudioState::from_head_tracking`. -/
theorem clamp_norm_mem (x m : ℚ) (hm : 0 < m) :
    0 ≤ (rustClamp x (-m) m / m + 1) / 2 ∧ (rustClamp x (-m) m / m + 1) / 2 ≤ 1 := by
  obtain ⟨h1, h2⟩ := rustClamp_mem x (-m) m (by linarith)
  have hlo : (-1 : ℚ) ≤ rustClamp x (-m) m / m := by
    rw [le_div_iff₀ hm]
    linarith
  have hhi : rustClamp x (-m) m / m ≤ 1 := (div_le_one hm).mpr h2
  constructor <;> linarith

/-- C4: inside the open dead zone the effective yaw is exactly `0`, and
the boundary value `yaw = DEAD_ZONE` also maps to `0`. -/
theorem deadZone_yields_zero (yaw : ℚ) :
    (|yaw| < DEAD_ZONE → effectiveYawOf yaw = 0) ∧ effectiveYawOf DEAD_ZONE = 0 := by
  constructor
  · intro h
    simp [effectiveYawOf, h]
  · simp [effectiveYawOf, rustSignum, DEAD_ZONE]

/-- Witness for C4 at `yaw = 3` (inside the zone) together with the
boundary case. -/
theorem deadZone_yields_zero_witness :
    |(3 : ℚ)| < DEAD_ZONE ∧ effectiveYawOf 3 = 0 ∧ effectiveYawOf DEAD_ZONE = 0 :=
  ⟨by decide, (deadZone_yields_zero 3).1 (by decide), (deadZone_yields_zero 3).2⟩

/-- C5: for yaw magnitudes at or beyond the dead zone, the effective
yaw equals `sign(yaw)·(|yaw| − DEAD_ZONE)`; in particular its magnitude
is `|yaw| − DEAD_ZONE` and its sign is the sign of `yaw`. -/
theorem effectiveYaw_sign_magnitude (yaw : ℚ) (h : DEAD_ZONE ≤ |yaw|) :
    effectiveYawOf yaw = rustSignum yaw * (|yaw| - DEAD_ZONE) ∧
    |effectiveYawOf yaw| = |yaw| - DEAD_ZONE := by
  have h' : ¬(|yaw| < DEAD_ZONE) := not_lt.mpr h
  constructor
  · simp [effectiveYawOf, h']
  · rw [effectiveYawOf, if_neg h', abs_mul, abs_rustSignum, one_mul,
      abs_of_nonneg (sub_nonneg.mpr h)]

/-- Witness for C5 at `yaw = -12`: effective yaw is `-7`. -/
theorem effectiveYaw_sign_magnitude_witness :
    DEAD_ZONE ≤ |(-12 : ℚ)| ∧
    (effectiveYawOf (-12) = rustSignum (-12) * (|(-12 : ℚ)| - DEAD_ZONE) ∧
      |effectiveYawOf (-12)| = |(-12 : ℚ)| - DEAD_ZONE) :=
  ⟨by decide, effectiveYaw_sign_magnitude (-12) (by decide)⟩

/-- C6: the volume computed by the mapping is monotone non-decreasing
in pitch, for any fixed yaw. -/
theorem volume_monotone_in_pitch (yaw p1 p2 : ℚ) (h : p1 ≤ p2) :
    (AudioState.from_head_tracking yaw p1).volume ≤
      (AudioState.from_head_tracking yaw p2).volume := by
  have hc := rustClamp_mono p1 p2 (-PITCH_SENSITIVITY) PITCH_SENSITIVITY
    (by unfold PITCH_SENSITIVITY; norm_num) h
  simp only [AudioState.from_head_tracking]
  unfold MIN_VOLUME MAX_VOLUME PITCH_SENSITIVITY at *
  nlinarith

/-- C2: for every yaw and pitch, each channel gain lies between
`MIN_CHANNEL` times the volume and the volume itself, and the volume
lies in `[MIN_VOLUME, MAX_VOLUME]`. -/
theorem audio_gain_invariants (yaw pitch : ℚ) :
    MIN_CHANNEL * (AudioState.from_head_tracking yaw pitch).volume ≤
      (AudioState.from_head_tracking yaw pitch).left ∧
    (AudioState.from_head_tracking yaw pitch).left ≤
      (AudioState.from_head_tracking yaw pitch).volume ∧
    MIN_CHANNEL * (AudioState.from_head_tracking yaw pitch).volume ≤
      (AudioState.from_head_tracking yaw pitch).right ∧
    (AudioState.from_head_tracking yaw pitch).right ≤
      (AudioState.from_head_tracking yaw pitch).volume ∧
    MIN_VOLUME ≤ (AudioState.from_head_tracking yaw pitch).volume ∧
    (AudioState.from_head_tracking yaw pitch).volume ≤ MAX_VOLUME := by
  obtain ⟨hn0, hn1⟩ := clamp_norm_mem (effectiveYawOf yaw) (YAW_SENSITIVITY - DEAD_ZONE)
    (by unfold YAW_SENSITIVITY DEAD_ZONE; norm_num)
  obtain ⟨hq0, hq1⟩ := clamp_norm_mem pitch PITCH_SENSITIVITY
    (by unfold PITCH_SENSITIVITY; norm_num)
  simp only [AudioState.from_head_tracking]
  set n := (rustClamp (effectiveYawOf yaw) (-(YAW_SENSITIVITY - DEAD_ZONE))
    (YAW_SENSITIVITY - DEAD_ZONE) / (YAW_SENSITIVITY - DEAD_ZONE) + 1) / 2 with hndef
  set q := (rustClamp pitch (-PITCH_SENSITIVITY) PITCH_SENSITIVITY / PITCH_SENSITIVITY + 1) / 2
    with hqdef
  set v := MIN_VOLUME + q * (MAX_VOLUME - MIN_VOLUME) with hvdef
  have hv1 : MIN_VOLUME ≤ v := by
    rw [hvdef]; unfold MIN_VOLUME MAX_VOLUME; nlinarith
  have hv2 : v ≤ MAX_VOLUME := by
    rw [hvdef]; unfold MIN_VOLUME MAX_VOLUME; nlinarith
  have hv0 : (0 : ℚ) < v := by
    have : (0 : ℚ) < MIN_VOLUME := by unfold MIN_VOLUME; norm_num
    linarith
  refine ⟨?_, ?_, ?_, ?_, hv1, hv2⟩
  · exact mul_le_mul_of_nonneg_right (le_max_right _ _) hv0.le
  · have h1 : max (1 - n) MIN_CHANNEL ≤ 1 :=
      max_le (by linarith) (by unfold MIN_CHANNEL; norm_num)
    calc max (1 - n) MIN_CHANNEL * v ≤ 1 * v :=
          mul_le_mul_of_nonneg_right h1 hv0.le
      _ = v := one_mul v
  · exact mul_le_mul_of_nonneg_right (le_max_right _ _) hv0.le
  · have h1 : max n MIN_CHANNEL ≤ 1 :=
      max_le (by linarith) (by unfold MIN_CHANNEL; norm_num)
    calc max n MIN_CHANNEL * v ≤ 1 * v :=
          mul_le_mul_of_nonneg_right h1 hv0.le
      _ = v := one_mul v

/-- Witness for C6 at `yaw = 10`, `p1 = -3`, `p2 = 4`. -/
theorem volume_monotone_in_pitch_witness :
    (-3 : ℚ) ≤ 4 ∧
    (AudioState.from_head_tracking 10 (-3)).volume ≤
      (AudioState.from_head_tracking 10 4).volume :=
  ⟨by decide, volume_monotone_in_pitch 10 (-3) 4 (by decide)⟩

/-- C9: the mapping is mirror-symmetric in yaw — negating the yaw swaps
the left and right gains and keeps the volume. -/
theorem pan_mirror_symmetry (yaw pitch : ℚ) :
    (AudioState.from_head_tracking (-yaw) pitch).left =
      (AudioState.from_head_tracking yaw pitch).right ∧
    (AudioState.from_head_tracking (-yaw) pitch).right =
      (AudioState.from_head_tracking yaw pitch).left ∧
    (AudioState.from_head_tracking (-yaw) pitch).volume =
      (AudioState.from_head_tracking yaw pitch).volume := by
  simp only [AudioState.from_head_tracking]
  rw [effectiveYawOf_neg, rustClamp_neg (effectiveYawOf yaw) (YAW_SENSITIVITY - DEAD_ZONE)
    (by unfold YAW_SENSITIVITY DEAD_ZONE; norm_num)]
  set c := rustClamp (effectiveYawOf yaw) (-(YAW_SENSITIVITY - DEAD_ZONE))
    (YAW_SENSITIVITY - DEAD_ZONE) with hcdef
  have hsub : ((-c) / (YAW_SENSITIVITY - DEAD_ZONE) + 1) / 2 =
      1 - (c / (YAW_SENSITIVITY - DEAD_ZONE) + 1) / 2 := by ring
  have h1n : 1 - (1 - (c / (YAW_SENSITIVITY - DEAD_ZONE) + 1) / 2) =
      (c / (YAW_SENSITIVITY - DEAD_ZONE) + 1) / 2 := by ring
  rw [hsub, h1n]
  exact ⟨rfl, rfl, trivial⟩

/-! ### Receive-loop theorems -/

/-- C10: `packet_count` is incremented by every successfully received
datagram, of any byte count — it counts receives, not valid frames. -/
theorem packet_count_always_increments (s : LoopState) (d : Datagram) (e : CycleEnv) :
    (recvStep s d e).state.packet_count = s.packet_count + 1 := by
  unfold recvStep
  split_ifs <;> simp [apply_ite]

/-- C1 counterexample: a 40-byte datagram received in the initial state
changes the packet counter, so not all of the listed state survives a
malformed receive unchanged. -/
theorem malformed_frame_changes_packet_count :
    (recvStep (LoopState.init 0) ⟨40, fun _ => 7⟩
      ⟨100, none, fun _ => none, 1, 101⟩).state.packet_count ≠
      (LoopState.init 0).packet_count := by decide

/-- C1 (amended): a datagram whose byte count differs from 48 produces
no sample and leaves every piece of loop state untouched except the
packet counter, which is incremented; no smoothing, apply, or render
happens. -/
theorem malformed_frame_only_counts (s : LoopState) (d : Datagram) (e : CycleEnv)
    (h : d.amt ≠ 48) :
    (recvStep s d e).state = { s with packet_count := s.packet_count + 1 } ∧
    (recvStep s d e).smoothing_ran = false ∧
    (recvStep s d e).applied = none := by
  unfold recvStep
  simp [h]

/-- Witness for the amended C1 at a 40-byte datagram. -/
theorem malformed_frame_only_counts_witness :
    (40 : ℕ) ≠ 48 ∧
    ((recvStep (LoopState.init 0) ⟨40, fun _ => 7⟩
        ⟨100, none, fun _ => none, 1, 101⟩).state =
      { LoopState.init 0 with packet_count := (LoopState.init 0).packet_count + 1 } ∧
    (recvStep (LoopState.init 0) ⟨40, fun _ => 7⟩
        ⟨100, none, fun _ => none, 1, 101⟩).smoothing_ran = false ∧
    (recvStep (LoopState.init 0) ⟨40, fun _ => 7⟩
        ⟨100, none, fun _ => none, 1, 101⟩).applied = none) :=
  ⟨by decide, malformed_frame_only_counts (LoopState.init 0) ⟨40, fun _ => 7⟩
    ⟨100, none, fun _ => none, 1, 101⟩ (by decide)⟩

/-- C8: on a structurally valid 48-byte frame the smoothing recurrence
runs exactly once, unconditionally; the mapping+apply+render step runs
only when at least `UPDATE_RATE_MS` has elapsed since the last apply —
otherwise the cycle ends after smoothing with no apply, no metric
recording, and no rendering. -/
theorem valid_frame_smooths_apply_gated (s : LoopState) (d : Datagram) (e : CycleEnv)
    (h : d.amt = 48) :
    (recvStep s d e).smoothing_ran = true ∧
    (recvStep s d e).state.smoothed = s.smoothed.update (d.data 3) (d.data 4) (d.data 5) ∧
    (e.now - s.last_update < UPDATE_RATE_MS →
      (recvStep s d e).applied = none ∧
      (recvStep s d e).state.stream_count = s.stream_count ∧
      (recvStep s d e).state.latency_samples = s.latency_samples ∧
      (recvStep s d e).state.avg_latency_ms = s.avg_latency_ms ∧
      (recvStep s d e).state.frame_count = s.frame_count ∧
      (recvStep s d e).state.current_fps = s.current_fps ∧
      (recvStep s d e).state.last_update = s.last_update ∧
      (recvStep s d e).state.last_fps_calc = s.last_fps_calc) ∧
    (¬(e.now - s.last_update < UPDATE_RATE_MS) →
      (recvStep s d e).applied = some (AudioState.from_head_tracking
        (s.smoothed.update (d.data 3) (d.data 4) (d.data 5)).yaw
        (s.smoothed.update (d.data 3) (d.data 4) (d.data 5)).pitch) ∧
      (recvStep s d e).state.stream_count =
        set_all_streams_pan e.list_objects e.set_param ∧
      (recvStep s d e).state.latency_samples =
        pushLatency s.latency_samples e.apply_latency_ms ∧
      (recvStep s d e).state.last_update = e.end_time) := by
  have h' : ¬(d.amt ≠ 48) := by simp [h]
  by_cases hg : e.now - s.last_update < UPDATE_RATE_MS <;>
    simp [recvStep, h', hg, apply_ite]

/-- Witness for C8 at a valid frame arriving after a long gap (the gate
passes). -/
theorem valid_frame_smooths_apply_gated_witness :
    (48 : ℕ) = 48 ∧
    ((recvStep (LoopState.init 0) ⟨48, fun _ => 8⟩
        ⟨100, none, fun _ => none, 1, 101⟩).smoothing_ran = true ∧
    (recvStep (LoopState.init 0) ⟨48, fun _ => 8⟩
        ⟨100, none, fun _ => none, 1, 101⟩).state.smoothed =
      (LoopState.init 0).smoothed.update 8 8 8 ∧
    ((100 : ℚ) - (LoopState.init 0).last_update < UPDATE_RATE_MS →
      (recvStep (LoopState.init 0) ⟨48, fun _ => 8⟩
          ⟨100, none, fun _ => none, 1, 101⟩).applied = none ∧
      (recvStep (LoopState.init 0) ⟨48, fun _ => 8⟩
          ⟨100, none, fun _ => none, 1, 101⟩).state.stream_count =
        (LoopState.init 0).stream_count ∧
      (recvStep (LoopState.init 0) ⟨48, fun _ => 8⟩
          ⟨100, none, fun _ => none, 1, 101⟩).state.latency_samples =
        (LoopState.init 0).latency_samples ∧
      (recvStep (LoopState.init 0) ⟨48, fun _ => 8⟩
          ⟨100, none, fun _ => none, 1, 101⟩).state.avg_latency_ms =
        (LoopState.init 0).avg_latency_ms ∧
      (recvStep (LoopState.init 0) ⟨48, fun _ => 8⟩
          ⟨100, none, fun _ => none, 1, 101⟩).state.frame_count =
        (LoopState.init 0).frame_count ∧
      (recvStep (LoopState.init 0) ⟨48, fun _ => 8⟩
          ⟨100, none, fun _ => none, 1, 101⟩).state.current_fps =
        (LoopState.init 0).current_fps ∧
      (recvStep (LoopState.init 0) ⟨48, fun _ => 8⟩
          ⟨100, none, fun _ => none, 1, 101⟩).state.last_update =
        (LoopState.init 0).last_update ∧
      (recvStep (LoopState.init 0) ⟨48, fun _ => 8⟩
          ⟨100, none, fun _ => none, 1, 101⟩).state.last_fps_calc =
        (LoopState.init 0).last_fps_calc) ∧
    (¬((100 : ℚ) - (LoopState.init 0).last_update < UPDATE_RATE_MS) →
      (recvStep (LoopState.init 0) ⟨48, fun _ => 8⟩
          ⟨100, none, fun _ => none, 1, 101⟩).applied =
        some (AudioState.from_head_tracking
          ((LoopState.init 0).smoothed.update 8 8 8).yaw
          ((LoopState.init 0).smoothed.update 8 8 8).pitch) ∧
      (recvStep (LoopState.init 0) ⟨48, fun _ => 8⟩
          ⟨100, none, fun _ => none, 1, 101⟩).state.stream_count =
        set_all_streams_pan none (fun _ => none) ∧
      (recvStep (LoopState.init 0) ⟨48, fun _ => 8⟩
          ⟨100, none, fun _ => none, 1, 101⟩).state.latency_samples =
        pushLatency (LoopState.init 0).latency_samples 1 ∧
      (recvStep (LoopState.init 0) ⟨48, fun _ => 8⟩
          ⟨100, none, fun _ => none, 1, 101⟩).state.last_update = 101)) :=
  ⟨rfl, valid_frame_smooths_apply_gated (LoopState.init 0) ⟨48, fun _ => 8⟩
    ⟨100, none, fun _ => none, 1, 101⟩ rfl⟩

/-! ### Characterization of the lookahead parse -/

/-- What the lookahead scan recognises, characterised: it reports `true`
exactly when some line index `m` in the scanned window `[j, stop)` (and
inside the listing) advertises the audio-stream media class, with no
line from `j` through `m` starting (after trimming) with `"id"`. -/
theorem blockScanAux_true_iff (lines : List String) (stop : ℕ) :
    ∀ fuel j, stop - j ≤ fuel →
    (blockScanAux lines stop j fuel = true ↔
      ∃ m, j ≤ m ∧ m < stop ∧ m < lines.length ∧
        (strContains (lines.getD m "") "media.class" &&
          strContains (lines.getD m "") "Stream/Output/Audio") = true ∧
        ∀ k, j ≤ k → k ≤ m →
          rustStartsWith (rustTrim (lines.getD k "")) "id" = false) := by
  intro fuel
  induction fuel with
  | zero =>
    intro j hj
    simp only [blockScanAux]
    constructor
    · intro h
      exact absurd h (by simp)
    · rintro ⟨m, hm1, hm2, -, -, -⟩
      omega
  | succ fuel ih =>
    intro j hj
    simp only [blockScanAux]
    by_cases hcond : j < lines.length ∧ j < stop
    · rw [if_pos hcond]
      by_cases hid : rustStartsWith (rustTrim (lines.getD j "")) "id" = true
      · rw [if_pos hid]
        constructor
        · intro h
          exact absurd h (by simp)
        · rintro ⟨m, hm1, -, -, -, hm5⟩
          rw [hm5 j le_rfl hm1] at hid
          simp at hid
      · rw [if_neg hid]
        rw [Bool.not_eq_true] at hid
        by_cases hmedia : (strContains (lines.getD j "") "media.class" &&
            strContains (lines.getD j "") "Stream/Output/Audio") = true
        · rw [if_pos hmedia]
          constructor
          · intro _
            refine ⟨j, le_rfl, hcond.2, hcond.1, hmedia, fun k hk1 hk2 => ?_⟩
            have hkj : k = j := le_antisymm hk2 hk1
            rw [hkj]
            exact hid
          · intro _
            rfl
        · rw [if_neg hmedia]
          rw [Bool.not_eq_true] at hmedia
          rw [ih (j + 1) (by omega)]
          constructor
          · rintro ⟨m, hm1, hm2, hm3, hm4, hm5⟩
            refine ⟨m, by omega, hm2, hm3, hm4, fun k hk1 hk2 => ?_⟩
            rcases Nat.eq_or_lt_of_le hk1 with heq | hlt
            · rw [← heq]
              exact hid
            · exact hm5 k (by omega) hk2
          · rintro ⟨m, hm1, hm2, hm3, hm4, hm5⟩
            have hmj : m ≠ j := by
              intro heq
              rw [heq, hmedia] at hm4
              simp at hm4
            exact ⟨m, by omega, hm2, hm3, hm4, fun k hk1 hk2 => hm5 k (by omega) hk2⟩
    · rw [if_neg hcond]
      constructor
      · intro h
        exact absurd h (by simp)
      · rintro ⟨m, hm1, hm2, hm3, -, -⟩
        omega

/-- The lookahead entry point inherits the characterization (its fuel
is exactly the loop measure). -/
theorem blockIsAudioOutput_true_iff (lines : List String) (j stop : ℕ) :
    blockIsAudioOutput lines j stop = true ↔
      ∃ m, j ≤ m ∧ m < stop ∧ m < lines.length ∧
        (strContains (lines.getD m "") "media.class" &&
          strContains (lines.getD m "") "Stream/Output/Audio") = true ∧
        ∀ k, j ≤ k → k ≤ m →
          rustStartsWith (rustTrim (lines.getD k "")) "id" = false :=
  blockScanAux_true_iff lines stop (stop - j) j le_rfl

/-- C7 (amended): the block scan for a node whose id line is at index
`i` attributes a media-class line at index `m` to that node exactly when
`m` lies within 19 lines after the id line — the scanned window is
`[i+1, i+20)`, so the block spans at most 20 lines counting the id line
itself — and no line from `i+1` through `m` starts a new object (trims
to an `"id"` prefix).  A media-class line 20 or more lines after the id
line is never attributed. -/
theorem lookahead_window_iff (lines : List String) (i : ℕ) :
    blockIsAudioOutput lines (i + 1) (i + 20) = true ↔
      ∃ m, i + 1 ≤ m ∧ m ≤ i + 19 ∧ m < lines.length ∧
        (strContains (lines.getD m "") "media.class" &&
          strContains (lines.getD m "") "Stream/Output/Audio") = true ∧
        ∀ k, i + 1 ≤ k → k ≤ m →
          rustStartsWith (rustTrim (lines.getD k "")) "id" = false := by
  rw [blockIsAudioOutput_true_iff]
  constructor <;> rintro ⟨m, h1, h2, h3, h4, h5⟩ <;>
    exact ⟨m, by omega, by omega, h3, h4, h5⟩

/-- C7 counterexample: a node block whose only media-class line sits
exactly 20 lines after the id line, with no intervening id line — it is
within 20 lines after the id line, yet the scan does not attribute it,
and the node is not counted as an audio playback stream. -/
theorem media_line_at_offset_twenty_missed :
    (rustStartsWith (rustTrim ((["id 42, type PipeWire:Interface:Node/3"] ++
        List.replicate 19 "x" ++
        ["   media.class = \x22Stream/Output/Audio\x22"]).getD 0 "")) "id" &&
      strContains ((["id 42, type PipeWire:Interface:Node/3"] ++
        List.replicate 19 "x" ++
        ["   media.class = \x22Stream/Output/Audio\x22"]).getD 0 "")
        "PipeWire:Interface:Node") = true ∧
    (strContains ((["id 42, type PipeWire:Interface:Node/3"] ++
        List.replicate 19 "x" ++
        ["   media.class = \x22Stream/Output/Audio\x22"]).getD 20 "")
        "media.class" &&
      strContains ((["id 42, type PipeWire:Interface:Node/3"] ++
        List.replicate 19 "x" ++
        ["   media.class = \x22Stream/Output/Audio\x22"]).getD 20 "")
        "Stream/Output/Audio") = true ∧
    (∀ k ∈ List.range' 1 20,
      rustStartsWith (rustTrim ((["id 42, type PipeWire:Interface:Node/3"] ++
        List.replicate 19 "x" ++
        ["   media.class = \x22Stream/Output/Audio\x22"]).getD k "")) "id" = false) ∧
    blockIsAudioOutput (["id 42, type PipeWire:Interface:Node/3"] ++
      List.replicate 19 "x" ++
      ["   media.class = \x22Stream/Output/Audio\x22"]) 1 20 = false ∧
    isCountedAudioNode (["id 42, type PipeWire:Interface:Node/3"] ++
      List.replicate 19 "x" ++
      ["   media.class = \x22Stream/Output/Audio\x22"]) 0 = false := by
  decide

/-! ### Counting theorem for `set_all_streams_pan` -/

/-- When every per-node update succeeds, the outer loop adds to its
accumulator exactly the number of counted audio nodes among the still
unvisited line indices. -/
theorem panLoopAux_count (sp : String → Option CmdOutput)
    (hsp : ∀ id, ∃ o, sp id = some o ∧ o.success = true) (lines : List String) :
    ∀ fuel i c, lines.length - i ≤ fuel →
    panLoopAux sp lines i c fuel =
      c + (List.range' i (lines.length - i)).countP (isCountedAudioNode lines) := by
  intro fuel
  induction fuel with
  | zero =>
    intro i c hf
    have h0 : lines.length - i = 0 := by omega
    rw [h0]
    simp [panLoopAux]
  | succ fuel ih =>
    intro i c hf
    by_cases hi : i < lines.length
    · have hlen : lines.length - i = (lines.length - (i + 1)) + 1 := by omega
      rw [hlen, List.range'_succ, List.countP_cons]
      have hstep : panLoopAux sp lines i c (fuel + 1) =
          panLoopAux sp lines (i + 1)
            (c + if isCountedAudioNode lines i = true then 1 else 0) fuel := by
        simp only [panLoopAux]
        rw [if_pos hi]
        congr 2
        unfold isCountedAudioNode
        by_cases h1 : (rustStartsWith (rustTrim (lines.getD i "")) "id" &&
            strContains (lines.getD i "") "PipeWire:Interface:Node") = true
        · rw [if_pos h1, h1]
          cases h2 : (splitWhitespaceR (lines.getD i "")).get? 1 with
          | none =>
            simp
          | some id_str =>
            by_cases h3 : blockIsAudioOutput lines (i + 1) (i + 20) = true
            · obtain ⟨o, ho, hos⟩ := hsp (trimEndMatchesComma id_str)
              rw [h3]
              simp [ho, hos]
            · rw [Bool.not_eq_true] at h3
              rw [h3]
              simp
        · rw [if_neg h1]
          rw [Bool.not_eq_true] at h1
          rw [h1]
          simp
      rw [hstep, ih (i + 1) (c + if isCountedAudioNode lines i = true then 1 else 0)
        (by omega)]
      omega
    · have h0 : lines.length - i = 0 := by omega
      rw [h0]
      simp only [panLoopAux]
      rw [if_neg hi]
      simp

/-- C3 (amended): `set_all_streams_pan` returns exactly the number of
node blocks of the parsed stdout listing classified as audio playback
streams when every per-node update command succeeds, and returns 0 when
the introspection command fails to spawn.  (The exit status of the
introspection command is never consulted; its stdout is parsed either
way.) -/
theorem apply_returns_matching_count (out : CmdOutput) (sp : String → Option CmdOutput)
    (hsp : ∀ id, ∃ o, sp id = some o ∧ o.success = true) :
    set_all_streams_pan (some out) sp = audioNodeCount (rustLines out.stdout) ∧
    set_all_streams_pan none sp = 0 := by
  constructor
  · show panLoopAux sp (rustLines out.stdout) 0 0 (rustLines out.stdout).length =
      audioNodeCount (rustLines out.stdout)
    rw [panLoopAux_count sp hsp (rustLines out.stdout) (rustLines out.stdout).length 0 0
      (by omega)]
    unfold audioNodeCount
    rw [List.range_eq_range', Nat.sub_zero, Nat.zero_add]
  · rfl

/-- Witness for the amended C3: a two-node listing with one audio
playback stream, all updates succeeding. -/
theorem apply_returns_matching_count_witness :
    (∀ id : String, ∃ o : CmdOutput,
      (fun _ : String => some (CmdOutput.mk true "")) id = some o ∧ o.success = true) ∧
    (set_all_streams_pan
        (some (CmdOutput.mk true
          "id 42, type PipeWire:Interface:Node/3\n   media.class = \x22Stream/Output/Audio\x22\nid 50, type PipeWire:Interface:Port/3\n"))
        (fun _ : String => some (CmdOutput.mk true "")) =
      audioNodeCount (rustLines
        "id 42, type PipeWire:Interface:Node/3\n   media.class = \x22Stream/Output/Audio\x22\nid 50, type PipeWire:Interface:Port/3\n") ∧
    set_all_streams_pan none (fun _ : String => some (CmdOutput.mk true "")) = 0) :=
  ⟨fun _ => ⟨CmdOutput.mk true "", rfl, rfl⟩,
    apply_returns_matching_count
      (CmdOutput.mk true
        "id 42, type PipeWire:Interface:Node/3\n   media.class = \x22Stream/Output/Audio\x22\nid 50, type PipeWire:Interface:Port/3\n")
      (fun _ : String => some (CmdOutput.mk true ""))
      (fun _ => ⟨CmdOutput.mk true "", rfl, rfl⟩)⟩

/-- C3 counterexample: an introspection command that completed with a
failure exit status but produced a parseable one-node listing — the
claim requires a return of 0 for a non-zero exit status, but the code
never consults that status and returns 1. -/
theorem introspection_exit_status_ignored :
    set_all_streams_pan
      (some (CmdOutput.mk false
        "id 42, type PipeWire:Interface:Node/3\n   media.class = \x22Stream/Output/Audio\x22\n"))
      (fun _ : String => some (CmdOutput.mk true "")) = 1 := by
  decide

end SpatialTrack
